import Mathlib

/-!
Verification of the fluent regular-expression builder (verbex.py).

The Python source is embedded shallowly: the builder state (`_parts`,
`_modifiers`) becomes a Lean structure, every public composition method
becomes a Lean function on that structure, the auto-escaping decorator
becomes an explicit operand transformation, and methods that can raise
return the post-call state together with an optional error message (the
source raises before any mutation, which the embedding reflects by
returning the untouched state on the error branches).

The underlying regular-expression engine (Python re) is not part of the
repository; the few facts needed about its pattern dialect are modelled
from the spec and documented as such below.
-/

namespace re

/-- The characters Python re.escape prefixes with a backslash
(CPython special chars map: parentheses, brackets, braces, question mark,
star, plus, minus, bar, caret, dollar, backslash, dot, ampersand, tilde,
hash, space, tab, newline, carriage return, vertical tab, form feed). -/
def specialChars : List Char :=
  ['(', ')', '[', ']', '\x7b', '\x7d', '?', '*', '+', '-', '|', '^', '$',
   '\\', '.', '&', '~', '#', ' ', '\t', '\n', '\r', '\x0b', '\x0c']

/-- Embedding of Python re.escape: every character with special meaning in
the pattern dialect is prefixed with a backslash; all others are kept. -/
def escape (s : String) : String :=
  String.mk (s.data.flatMap (fun c => if c ∈ specialChars then ['\\', c] else [c]))

/-- Numeric value of the re.IGNORECASE flag. -/
def IGNORECASE : Nat := 2

/-- Numeric value of the re.MULTILINE flag. -/
def MULTILINE : Nat := 8

/-- Numeric value of the re.ASCII flag. -/
def ASCII : Nat := 256

end re

/-- Embedding of the CharClass enum of the source. -/
inductive CharClass
  | DIGIT
  | LETTER
  | UPPERCASE_LETTER
  | LOWERCASE_LETTER
  | WHITESPACE
  | TAB
deriving DecidableEq

/-- The string value of each CharClass member (its Enum value). -/
def CharClass.value : CharClass → String
  | DIGIT => "\\d"
  | LETTER => "\\w"
  | UPPERCASE_LETTER => "\\u"
  | LOWERCASE_LETTER => "\\l"
  | WHITESPACE => "\\s"
  | TAB => "\\t"

/-- Embedding of the SpecialChar enum of the source. -/
inductive SpecialChar
  | LINEBREAK
  | START_OF_LINE
  | END_OF_LINE
  | TAB
deriving DecidableEq

/-- The string value of each SpecialChar member (its Enum value). -/
def SpecialChar.value : SpecialChar → String
  | LINEBREAK => "(\\n|(\\r\\n))"
  | START_OF_LINE => "^"
  | END_OF_LINE => "$"
  | TAB => "\t"

/-- The builder state: the ordered fragment list `_parts` and the flag set
`_modifiers` (a Python RegexFlag bitmask, embedded as a Nat). -/
structure Verbex where
  _parts : List String
  _modifiers : Nat
deriving DecidableEq

/-- A fresh builder, Verbex() with the default empty flag set. -/
def Verbex.empty : Verbex := Verbex.mk [] 0

/-- Embedding of Verbex.__str__: the concatenation of the fragments. -/
def Verbex.toStr (v : Verbex) : String := String.join v._parts

/-- Embedding of Verbex._add for a single string value: append one fragment,
leaving the flag set untouched. -/
def Verbex._add (v : Verbex) (value : String) : Verbex :=
  Verbex.mk (v._parts ++ [value]) v._modifiers

/-- An operand of a composition operation
(VerbexEscapedCharClassOrSpecial plus the distinction between a plain str
and an EscapedText, which the decorator needs). -/
inductive Operand
  | lit (s : String)
  | escaped (s : String)
  | cls (c : CharClass)
  | special (c : SpecialChar)
  | verbex (v : Verbex)
deriving DecidableEq

/-- Embedding of Python str(operand): a str renders as itself, an
EscapedText as its (already escaped) content, an enum member as its value,
a nested builder as its rendered pattern text. -/
def Operand.str : Operand → String
  | lit s => s
  | escaped s => s
  | cls c => c.value
  | special c => c.value
  | verbex v => v.toStr

/-- Embedding of isinstance(x, str): true for a plain str and for
EscapedText (a str subclass), false for the enums and for a builder. -/
def Operand.isStr : Operand → Bool
  | lit _ => true
  | escaped _ => true
  | _ => false

/-- The per-argument action of the re_escape decorator: a plain str that is
not already EscapedText is replaced by EscapedText of it (which holds
re.escape of the value); every other argument passes through unchanged. -/
def re_escape_arg : Operand → Operand
  | Operand.lit s => Operand.escaped (re.escape s)
  | o => o

/-- The loop of the decorator over the positional arguments. -/
def re_escape_args : List Operand → List Operand
  | [] => []
  | a :: rest => re_escape_arg a :: re_escape_args rest

/-- The loop of the decorator over the keyword arguments. -/
def re_escape_kwargs : List (String × Operand) → List (String × Operand)
  | [] => []
  | (k, a) :: rest => (k, re_escape_arg a) :: re_escape_kwargs rest

/-- The whole decorator call: escape the positional and the keyword
arguments, then invoke the wrapped function (here: return both lists). -/
def re_escape_call (args : List Operand) (kwargs : List (String × Operand)) :
    List Operand × List (String × Operand) :=
  (re_escape_args args, re_escape_kwargs kwargs)

/-- Embedding of Verbex.find: escape the operand (the decorator), then
append str(text) as one fragment. -/
def Verbex.find (v : Verbex) (text : Operand) : Verbex :=
  v._add (re_escape_arg text).str

/-- Embedding of Verbex.then (a Lean keyword, hence the prime): the
decorator escapes the operand, then the body delegates to find. -/
def Verbex.then' (v : Verbex) (text : Operand) : Verbex :=
  v.find (re_escape_arg text)

/-- Embedding of Verbex.OR: append a bar fragment, then find the operand. -/
def Verbex.OR (v : Verbex) (text : Operand) : Verbex :=
  (v._add "|").find (re_escape_arg text)

/-- Embedding of Verbex.zero_or_more. -/
def Verbex.zero_or_more (v : Verbex) (text : Operand) : Verbex :=
  v._add ("(?:" ++ (re_escape_arg text).str ++ ")*")

/-- Embedding of Verbex.one_or_more. -/
def Verbex.one_or_more (v : Verbex) (text : Operand) : Verbex :=
  v._add ("(?:" ++ (re_escape_arg text).str ++ ")+")

/-- Embedding of Verbex.n_times. -/
def Verbex.n_times (v : Verbex) (text : Operand) (n : Int) : Verbex :=
  v._add ("(?:" ++ (re_escape_arg text).str ++ ")\x7b" ++ toString n ++ "\x7d")

/-- Embedding of Verbex.n_times_or_more. -/
def Verbex.n_times_or_more (v : Verbex) (text : Operand) (n : Int) : Verbex :=
  v._add ("(?:" ++ (re_escape_arg text).str ++ ")\x7b" ++ toString n ++ ",\x7d")

/-- Embedding of Verbex.n_to_m_times. -/
def Verbex.n_to_m_times (v : Verbex) (text : Operand) (n m : Int) : Verbex :=
  v._add ("(?:" ++ (re_escape_arg text).str ++ ")\x7b" ++ toString n ++ "," ++ toString m ++ "\x7d")

/-- Embedding of Verbex.maybe. -/
def Verbex.maybe (v : Verbex) (text : Operand) : Verbex :=
  v._add ("(?:" ++ (re_escape_arg text).str ++ ")?")

/-- Embedding of Verbex.followed_by. -/
def Verbex.followed_by (v : Verbex) (text : Operand) : Verbex :=
  v._add ("(?=" ++ (re_escape_arg text).str ++ ")")

/-- Embedding of Verbex.not_followed_by. -/
def Verbex.not_followed_by (v : Verbex) (text : Operand) : Verbex :=
  v._add ("(?!" ++ (re_escape_arg text).str ++ ")")

/-- Embedding of Verbex.preceded_by. -/
def Verbex.preceded_by (v : Verbex) (text : Operand) : Verbex :=
  v._add ("(?<=" ++ (re_escape_arg text).str ++ ")")

/-- Embedding of Verbex.not_preceded_by. -/
def Verbex.not_preceded_by (v : Verbex) (text : Operand) : Verbex :=
  v._add ("(?<!" ++ (re_escape_arg text).str ++ ")")

/-- Embedding of Verbex.any_of (source annotation narrows the operand to a
str or a CharClass; the decorator escapes a plain str). -/
def Verbex.any_of (v : Verbex) (chargroup : Operand) : Verbex :=
  v._add ("(?:[" ++ (re_escape_arg chargroup).str ++ "])")

/-- Embedding of Verbex.not_any_of. -/
def Verbex.not_any_of (v : Verbex) (text : Operand) : Verbex :=
  v._add ("(?:[^" ++ (re_escape_arg text).str ++ "])")

/-- Embedding of Verbex.anything_but. -/
def Verbex.anything_but (v : Verbex) (chargroup : Operand) : Verbex :=
  v._add ("[^" ++ (re_escape_arg chargroup).str ++ "]+")

/-- Embedding of Verbex.start_of_line: find the START_OF_LINE atom. -/
def Verbex.start_of_line (v : Verbex) : Verbex :=
  v.find (Operand.special SpecialChar.START_OF_LINE)

/-- Embedding of Verbex.end_of_line. -/
def Verbex.end_of_line (v : Verbex) : Verbex :=
  v.find (Operand.special SpecialChar.END_OF_LINE)

/-- Embedding of Verbex.line_break. -/
def Verbex.line_break (v : Verbex) : Verbex :=
  v.find (Operand.special SpecialChar.LINEBREAK)

/-- Embedding of Verbex.tab. -/
def Verbex.tab (v : Verbex) : Verbex :=
  v.find (Operand.special SpecialChar.TAB)

/-- Embedding of Verbex.anything. -/
def Verbex.anything (v : Verbex) : Verbex :=
  v._add ".+"

/-- Embedding of Verbex.as_few. -/
def Verbex.as_few (v : Verbex) : Verbex :=
  v._add "?"

/-- Embedding of Verbex.word. -/
def Verbex.word (v : Verbex) : Verbex :=
  v._add "(\\b\\w+\\b)"

/-- The integers produced by Python range(start, end + 1), in order. -/
def numberList (start end_ : Int) : List Int :=
  (List.range (end_ + 1 - start).toNat).map (fun j : Nat => start + (j : Int))

/-- Embedding of Verbex.number_range: a non-capturing alternation of the
decimal literals of every integer from start to end inclusive. -/
def Verbex.number_range (v : Verbex) (start end_ : Int) : Verbex :=
  v._add ("(?:" ++ String.intercalate "|" ((numberList start end_).map toString) ++ ")")

/-- Embedding of Verbex.letter_range together with its beartype validation:
the Char annotation of both parameters demands a string of length exactly
one; a violation raises before the body runs, so the state component of the
result is the untouched builder paired with the error. -/
def Verbex.letter_rangeM (v : Verbex) (start end_ : String) : Verbex × Option String :=
  if start.length = 1 ∧ end_.length = 1 then
    (v._add ("[" ++ start ++ "-" ++ end_ ++ "]"), none)
  else
    (v, some "beartype roar: parameter violates the Char annotation")

/-- Embedding of Verbex._capture_group_with_name (itself decorated, so the
name and the text are escaped if they arrive as plain str). -/
def Verbex._capture_group_with_name (v : Verbex) (name text : Operand) : Verbex :=
  v._add ("(?<" ++ (re_escape_arg name).str ++ ">" ++ (re_escape_arg text).str ++ ")")

/-- Embedding of Verbex._capture_group_without_name. -/
def Verbex._capture_group_without_name (v : Verbex) (text : Operand) : Verbex :=
  v._add ("(" ++ (re_escape_arg text).str ++ ")")

/-- Embedding of Verbex.capture_group with both optional arguments.  The
decorator first escapes every supplied argument; then the body dispatches:
with name_or_text present and text absent, an unnamed group on name_or_text;
with both present and name_or_text a str, a named group; in every other
case the ValueError is raised before any fragment is appended, which the
embedding reflects by returning the untouched builder with the message. -/
def Verbex.capture_groupM (v : Verbex) (name_or_text text : Option Operand) :
    Verbex × Option String :=
  match name_or_text.map re_escape_arg with
  | some nv =>
    match text.map re_escape_arg with
    | none => (v._capture_group_without_name nv, none)
    | some tv =>
      if nv.isStr then (v._capture_group_with_name nv tv, none)
      else (v, some "text must be specified with optional name")
  | none => (v, some "text must be specified with optional name")

/-- Embedding of Verbex.with_any_case: union the IGNORECASE bit into the
flag set. -/
def Verbex.with_any_case (v : Verbex) : Verbex :=
  Verbex.mk v._parts (v._modifiers ||| re.IGNORECASE)

/-- Embedding of Verbex.search_by_line: union the MULTILINE bit into the
flag set. -/
def Verbex.search_by_line (v : Verbex) : Verbex :=
  Verbex.mk v._parts (v._modifiers ||| re.MULTILINE)

/-- Embedding of Verbex.with_ascii: union the ASCII bit into the flag
set. -/
def Verbex.with_ascii (v : Verbex) : Verbex :=
  Verbex.mk v._parts (v._modifiers ||| re.ASCII)

/-- One call to a public composition or flag operation of the builder, with
its arguments: the sanctioned public surface of the source class. -/
inductive Call
  | find (t : Operand)
  | then' (t : Operand)
  | OR (t : Operand)
  | zero_or_more (t : Operand)
  | one_or_more (t : Operand)
  | n_times (t : Operand) (n : Int)
  | n_times_or_more (t : Operand) (n : Int)
  | n_to_m_times (t : Operand) (n m : Int)
  | maybe (t : Operand)
  | capture_group (name_or_text text : Option Operand)
  | followed_by (t : Operand)
  | not_followed_by (t : Operand)
  | preceded_by (t : Operand)
  | not_preceded_by (t : Operand)
  | any_of (t : Operand)
  | not_any_of (t : Operand)
  | anything_but (t : Operand)
  | start_of_line
  | end_of_line
  | line_break
  | tab
  | anything
  | as_few
  | number_range (n m : Int)
  | letter_range (a b : String)
  | word
  | with_any_case
  | search_by_line
  | with_ascii
deriving DecidableEq

/-- The builder state after one public call (for the two calls that can
raise, the state at the raise, which the source leaves untouched). -/
def applyCall (v : Verbex) : Call → Verbex
  | Call.find t => v.find t
  | Call.then' t => v.then' t
  | Call.OR t => v.OR t
  | Call.zero_or_more t => v.zero_or_more t
  | Call.one_or_more t => v.one_or_more t
  | Call.n_times t n => v.n_times t n
  | Call.n_times_or_more t n => v.n_times_or_more t n
  | Call.n_to_m_times t n m => v.n_to_m_times t n m
  | Call.maybe t => v.maybe t
  | Call.capture_group a b => (v.capture_groupM a b).1
  | Call.followed_by t => v.followed_by t
  | Call.not_followed_by t => v.not_followed_by t
  | Call.preceded_by t => v.preceded_by t
  | Call.not_preceded_by t => v.not_preceded_by t
  | Call.any_of t => v.any_of t
  | Call.not_any_of t => v.not_any_of t
  | Call.anything_but t => v.anything_but t
  | Call.start_of_line => v.start_of_line
  | Call.end_of_line => v.end_of_line
  | Call.line_break => v.line_break
  | Call.tab => v.tab
  | Call.anything => v.anything
  | Call.as_few => v.as_few
  | Call.number_range n m => v.number_range n m
  | Call.letter_range a b => (v.letter_rangeM a b).1
  | Call.word => v.word
  | Call.with_any_case => v.with_any_case
  | Call.search_by_line => v.search_by_line
  | Call.with_ascii => v.with_ascii

/-- The builder state after a sequence of public calls, left to right. -/
def applyCalls (v : Verbex) (cs : List Call) : Verbex :=
  cs.foldl applyCall v

/-- Modelled from the spec: the pattern dialect of the target engine
(Python re, the engine the source imports).  After the group-extension
introducer left-parenthesis question-mark less-than, the engine accepts
only an equals sign or an exclamation mark (the two lookbehind forms);
a named group is written with a P before the angle bracket, and any other
character after the less-than is a pattern syntax error reported as an
unknown extension. -/
def angleExtensionAccepted (c : Char) : Bool :=
  c = '=' || c = '!'

/-- Abstract syntax of the fragment of the pattern dialect needed here:
the empty pattern, a literal character, the any-character dot, sequencing,
alternation and a group. -/
inductive RE
  | eps
  | chr (c : Char)
  | dot
  | cat (a b : RE)
  | alt (a b : RE)
  | group (a : RE)
deriving DecidableEq

/-- Modelled from the spec: matching of the abstract patterns, standard
regular-expression semantics.  The result lists every suffix left after
matching a prefix of the input (the dot does not match a newline, as in
the target engine without DOTALL). -/
def matchPre : RE → List Char → List (List Char)
  | RE.eps, s => [s]
  | RE.chr _, [] => []
  | RE.chr c, x :: xs => if x = c then [xs] else []
  | RE.dot, [] => []
  | RE.dot, x :: xs => if x = '\n' then [] else [xs]
  | RE.cat a b, s => (matchPre a s).flatMap (fun s2 => matchPre b s2)
  | RE.alt a b, s => matchPre a s ++ matchPre b s
  | RE.group a, s => matchPre a s

/-- A pattern accepts a string when some way of matching consumes it
entirely. -/
def fullmatch (r : RE) (s : String) : Bool :=
  (matchPre r s.data).any List.isEmpty

/-- Parser mode: alternation level, sequence level, single atom. -/
inductive PMode
  | alt
  | seq
  | atom
deriving DecidableEq

/-- Does the sequence level stop here (end of input, a bar, or a closing
parenthesis)? -/
def seqStops : List Char → Bool
  | [] => true
  | '|' :: _ => true
  | ')' :: _ => true
  | _ => false

/-- Modelled from the spec: a recursive-descent parser for the fragment of
the target dialect needed by the concrete patterns below (literal
characters, backslash escapes of non-alphanumeric characters, the dot,
capturing and non-capturing groups, alternation).  Constructs outside this
fragment make the parser return none; it is only ever appealed to on
concrete pattern texts on which it succeeds.  The fuel bounds recursion
depth and is chosen large enough at the entry point. -/
def parseP : Nat → PMode → List Char → Option (RE × List Char)
  | 0, _, _ => none
  | fuel + 1, PMode.alt, cs =>
    match parseP fuel PMode.seq cs with
    | none => none
    | some (r, rest) =>
      match rest with
      | '|' :: rest2 =>
        match parseP fuel PMode.alt rest2 with
        | none => none
        | some (r2, rest3) => some (RE.alt r r2, rest3)
      | _ => some (r, rest)
  | fuel + 1, PMode.seq, cs =>
    if seqStops cs then some (RE.eps, cs)
    else
      match parseP fuel PMode.atom cs with
      | none => none
      | some (r, rest) =>
        match parseP fuel PMode.seq rest with
        | none => none
        | some (r2, rest2) => some (RE.cat r r2, rest2)
  | fuel + 1, PMode.atom, cs =>
    match cs with
    | [] => none
    | '(' :: '?' :: ':' :: rest =>
      match parseP fuel PMode.alt rest with
      | some (r, ')' :: rest2) => some (RE.group r, rest2)
      | _ => none
    | '(' :: '?' :: _ => none
    | '(' :: rest =>
      match parseP fuel PMode.alt rest with
      | some (r, ')' :: rest2) => some (RE.group r, rest2)
      | _ => none
    | '\\' :: c :: rest =>
      if c.isAlphanum then none else some (RE.chr c, rest)
    | '.' :: rest => some (RE.dot, rest)
    | c :: rest =>
      if c = '|' ∨ c = ')' ∨ c = '*' ∨ c = '+' ∨ c = '?' ∨ c = '[' ∨ c = '\\'
      then none
      else some (RE.chr c, rest)

/-- Parse a whole pattern text: the alternation level must consume all of
the input. -/
def parsePattern (s : String) : Option RE :=
  match parseP (4 * s.length + 4) PMode.alt s.data with
  | some (r, []) => some r
  | _ => none

/-- A pattern text accepts a string when it parses in the modelled dialect
fragment and the parsed pattern fully matches the string. -/
def patternAccepts (p s : String) : Bool :=
  match parsePattern p with
  | some r => fullmatch r s
  | none => false

/-- The raise condition as the claim words it (a name given without
accompanying text), instantiated by the claim itself at the pair of
absent arguments: no text accompanies the call. -/
def claimRaiseCondition (name_or_text text : Option Operand) : Bool :=
  name_or_text.isNone && text.isNone

theorem re_escape_args_eq_map (l : List Operand) :
    re_escape_args l = l.map re_escape_arg := by
  induction l with
  | nil => rfl
  | cons a rest ih => simp [re_escape_args, ih]

theorem re_escape_kwargs_eq_map (l : List (String × Operand)) :
    re_escape_kwargs l = l.map (fun p => (p.1, re_escape_arg p.2)) := by
  induction l with
  | nil => rfl
  | cons a rest ih => cases a; simp [re_escape_kwargs, ih]

theorem foldl_append_singleton (xs : List String) (s a : String) :
    List.foldl (fun r t => r ++ t) a (xs ++ [s])
      = List.foldl (fun r t => r ++ t) a xs ++ s := by
  induction xs generalizing a with
  | nil => rfl
  | cons x xs ih => exact ih (a ++ x)

theorem join_concat (xs : List String) (s : String) :
    String.join (xs ++ [s]) = String.join xs ++ s :=
  foldl_append_singleton xs s ""

theorem toStr_add (v : Verbex) (s : String) :
    (v._add s).toStr = v.toStr ++ s :=
  join_concat v._parts s

theorem lor_self_eq (x : Nat) : x ||| x = x := by
  apply Nat.eq_of_testBit_eq
  intro i
  simp

theorem lor_absorb (x f : Nat) : x ||| (x ||| f) = x ||| f := by
  apply Nat.eq_of_testBit_eq
  intro i
  simp [Bool.or_assoc]

theorem capture_groupM_fst_modifiers (v : Verbex) (a b : Option Operand) :
    ((v.capture_groupM a b).1)._modifiers = v._modifiers := by
  cases a with
  | none => rfl
  | some nv =>
    cases b with
    | none => rfl
    | some tv =>
      by_cases hs : (re_escape_arg nv).isStr <;>
        simp [Verbex.capture_groupM, hs, Verbex._capture_group_with_name, Verbex._add]

theorem letter_rangeM_fst_modifiers (v : Verbex) (a b : String) :
    ((v.letter_rangeM a b).1)._modifiers = v._modifiers := by
  by_cases hc : a.length = 1 ∧ b.length = 1 <;> simp [Verbex.letter_rangeM, hc, Verbex._add]

theorem mem_numberList (n m i : Int) : i ∈ numberList n m ↔ n ≤ i ∧ i ≤ m := by
  unfold numberList
  rw [List.mem_map]
  constructor
  · rintro ⟨j, hj, rfl⟩
    rw [List.mem_range] at hj
    omega
  · rintro ⟨h1, h2⟩
    refine ⟨(i - n).toNat, ?_, ?_⟩
    · rw [List.mem_range]
      omega
    · omega

/-- C1: every plain string operand of a composition operation is replaced,
before the operation runs, by its escaped form re.escape of it, so the
appended fragment matches the literal text and only it (the a.b example
matches a.b and not axb); operands that are already EscapedText, a
CharClass, a SpecialChar or a Verbex pass through unchanged, positionally
and as keyword arguments alike. -/
theorem C1_operand_auto_escaping :
    (∀ s, re_escape_arg (Operand.lit s) = Operand.escaped (re.escape s))
    ∧ (∀ s, re_escape_arg (Operand.escaped s) = Operand.escaped s)
    ∧ (∀ c, re_escape_arg (Operand.cls c) = Operand.cls c)
    ∧ (∀ c, re_escape_arg (Operand.special c) = Operand.special c)
    ∧ (∀ w, re_escape_arg (Operand.verbex w) = Operand.verbex w)
    ∧ (∀ args kwargs, re_escape_call args kwargs
        = (args.map re_escape_arg, kwargs.map (fun p => (p.1, re_escape_arg p.2))))
    ∧ (∀ v s, Verbex.find v (Operand.lit s) = Verbex._add v (re.escape s))
    ∧ (Verbex.find Verbex.empty (Operand.lit "a.b")).toStr = "a\\.b"
    ∧ patternAccepts "a\\.b" "a.b" = true
    ∧ patternAccepts "a\\.b" "axb" = false :=
  ⟨fun _ => rfl, fun _ => rfl, fun _ => rfl, fun _ => rfl, fun _ => rfl,
   fun args kwargs => by
     simp [re_escape_call, re_escape_args_eq_map, re_escape_kwargs_eq_map],
   fun _ _ => rfl, by decide, by decide, by decide⟩

/-- C2: the code does append the fragment the claim names, but the
angle-bracket named-group syntax it uses is not part of the dialect of the
engine the source imports (whose named groups require a P after the
question mark), so the produced pattern is a syntax error there and no
matcher exposing the named group can result: the compile half of the
claim fails on the code. -/
theorem C2_named_group_fragment_rejected_by_dialect :
    Verbex.capture_groupM Verbex.empty (some (Operand.lit "year"))
        (some (Operand.verbex (Verbex.find Verbex.empty (Operand.lit "2024"))))
      = (Verbex._add Verbex.empty "(?<year>2024)", none)
    ∧ "(?<year>2024)".data.take 4 = ['(', '?', '<', 'y']
    ∧ angleExtensionAccepted 'y' = false :=
  ⟨by decide, by decide, by decide⟩

/-- C3: a single sanctioned call on a fresh builder, the named capture
group of the spec's own operation table, already concatenates to pattern
text the engine dialect rejects (an unknown extension after the
angle-bracket introducer), so compiling can raise a pattern syntax error
through sanctioned operations alone: the claimed invariant fails on the
code. -/
theorem C3_sanctioned_sequence_produces_invalid_pattern :
    (applyCalls Verbex.empty
        [Call.capture_group (some (Operand.lit "year"))
          (some (Operand.verbex (Verbex.find Verbex.empty (Operand.lit "2024"))))]).toStr
      = "(?<year>2024)"
    ∧ "(?<year>2024)".data.take 4 = ['(', '?', '<', 'y']
    ∧ angleExtensionAccepted 'y' = false :=
  ⟨by decide, by decide, by decide⟩

/-- C4: whenever capture_group or letter_range raises its validation
error, the builder state, fragments and flags both, is exactly what it was
before the failed call. -/
theorem C4_error_leaves_state_unchanged (v : Verbex) :
    (∀ a b, (Verbex.capture_groupM v a b).2.isSome = true →
      (Verbex.capture_groupM v a b).1 = v)
    ∧ (∀ a b, (Verbex.letter_rangeM v a b).2.isSome = true →
      (Verbex.letter_rangeM v a b).1 = v) := by
  constructor
  · intro a b h
    cases a with
    | none => rfl
    | some nv =>
      cases b with
      | none => simp [Verbex.capture_groupM] at h
      | some tv =>
        by_cases hs : (re_escape_arg nv).isStr
        · simp [Verbex.capture_groupM, hs] at h
        · simp [Verbex.capture_groupM, hs]
  · intro a b h
    by_cases hc : a.length = 1 ∧ b.length = 1
    · simp [Verbex.letter_rangeM, hc] at h
    · simp [Verbex.letter_rangeM, hc]

/-- C4 witness: the failed calls capture_group at two absent arguments and
letter_range at a two-character argument leave the fresh builder
untouched. -/
theorem C4_witness :
    (Verbex.capture_groupM Verbex.empty none none).1 = Verbex.empty
    ∧ (Verbex.letter_rangeM Verbex.empty "ab" "z").1 = Verbex.empty :=
  ⟨(C4_error_leaves_state_unchanged Verbex.empty).1 none none (by decide),
   (C4_error_leaves_state_unchanged Verbex.empty).2 "ab" "z" (by decide)⟩

/-- C5 counterexample: when no first argument is given and the text is
supplied, the code raises, although the condition the claim states
(a name given without accompanying text, which at the pair of absent
arguments the claim itself instantiates) does not hold there, so the
claimed exact characterization is false at this input. -/
theorem C5_counterexample :
    ¬ (((Verbex.capture_groupM Verbex.empty none
          (some (Operand.escaped "x"))).2.isSome = true)
        ↔ (claimRaiseCondition none (some (Operand.escaped "x")) = true)) := by
  decide

/-- C5 amended: capture_group raises its ValueError exactly when the first
argument is absent (even if the text is supplied), or when both arguments
are supplied and the first is not a string; in particular the two-absent
call raises, and neither text alone nor a string name with text does. -/
theorem C5_raise_characterization (v : Verbex) (n t : Option Operand) :
    ((Verbex.capture_groupM v n t).2.isSome = true)
      ↔ (n = none ∨ (t ≠ none ∧ n.any (fun x => !x.isStr) = true)) := by
  cases n with
  | none => simp [Verbex.capture_groupM]
  | some nv =>
    cases t with
    | none => simp [Verbex.capture_groupM]
    | some tv =>
      cases nv <;>
        simp [Verbex.capture_groupM, re_escape_arg, Operand.isStr, Option.any]

/-- C6: then is a pure synonym for find, and a builder embedded as the
operand is spliced in as its rendered pattern text, verbatim and
unescaped: the result renders to the concatenation of the two renders. -/
theorem C6_then_splices_render (x y : Verbex) (o : Operand) :
    (Verbex.then' x (Operand.verbex y)).toStr = x.toStr ++ y.toStr
    ∧ Verbex.then' x o = Verbex.find x o := by
  constructor
  · exact toStr_add x y.toStr
  · cases o <;> rfl

/-- C7: number_range appends one non-capturing alternation fragment whose
alternatives are the decimal literals of exactly the integers of the
inclusive range, and the instance from 1 to 3 accepts 1, 2 and 3 while
rejecting 4. -/
theorem C7_number_range_alternation (v : Verbex) (n m i : Int) :
    (Verbex.number_range v n m)._parts
      = v._parts
        ++ ["(?:" ++ String.intercalate "|" ((numberList n m).map toString) ++ ")"]
    ∧ (i ∈ numberList n m ↔ n ≤ i ∧ i ≤ m)
    ∧ (Verbex.number_range Verbex.empty 1 3).toStr = "(?:1|2|3)"
    ∧ patternAccepts "(?:1|2|3)" "1" = true
    ∧ patternAccepts "(?:1|2|3)" "2" = true
    ∧ patternAccepts "(?:1|2|3)" "3" = true
    ∧ patternAccepts "(?:1|2|3)" "4" = false :=
  ⟨rfl, mem_numberList n m i, by decide, by decide, by decide, by decide,
   by decide⟩

/-- C8: the flag set grows monotonically: every public call preserves every
flag already present (the union of the old flag set into the new one
changes nothing), and the three flag operations union exactly IGNORECASE,
MULTILINE and ASCII respectively while leaving the fragments alone. -/
theorem C8_flags_monotone (v : Verbex) (c : Call) :
    v._modifiers ||| (applyCall v c)._modifiers = (applyCall v c)._modifiers
    ∧ Verbex.with_any_case v = Verbex.mk v._parts (v._modifiers ||| re.IGNORECASE)
    ∧ Verbex.search_by_line v = Verbex.mk v._parts (v._modifiers ||| re.MULTILINE)
    ∧ Verbex.with_ascii v = Verbex.mk v._parts (v._modifiers ||| re.ASCII) := by
  refine ⟨?_, rfl, rfl, rfl⟩
  cases c
  case capture_group a b =>
    have h := capture_groupM_fst_modifiers v a b
    simp only [applyCall, h]
    exact lor_self_eq _
  case letter_range a b =>
    have h := letter_rangeM_fst_modifiers v a b
    simp only [applyCall, h]
    exact lor_self_eq _
  case with_any_case => exact lor_absorb _ _
  case search_by_line => exact lor_absorb _ _
  case with_ascii => exact lor_absorb _ _
  all_goals exact lor_self_eq _

/-- C9: letter_range validates that both arguments are strings of exactly
one character, raising with the builder untouched otherwise, and for
single characters appends exactly the bracketed range fragment. -/
theorem C9_letter_range_validation (v : Verbex) (a b : String) :
    (a.length = 1 → b.length = 1 →
      Verbex.letter_rangeM v a b = (v._add ("[" ++ a ++ "-" ++ b ++ "]"), none))
    ∧ (¬ (a.length = 1 ∧ b.length = 1) →
      (Verbex.letter_rangeM v a b).1 = v
      ∧ (Verbex.letter_rangeM v a b).2.isSome = true) := by
  constructor
  · intro h1 h2
    simp [Verbex.letter_rangeM, h1, h2]
  · intro h
    simp [Verbex.letter_rangeM, h]

/-- C9 witness: the single-character call appends exactly the a-to-z range
fragment, and the call whose first argument has two characters raises. -/
theorem C9_witness :
    Verbex.letter_rangeM Verbex.empty "a" "z"
      = (Verbex._add Verbex.empty "[a-z]", none)
    ∧ (Verbex.letter_rangeM Verbex.empty "ab" "z").2.isSome = true :=
  ⟨(C9_letter_range_validation Verbex.empty "a" "z").1 (by decide) (by decide),
   ((C9_letter_range_validation Verbex.empty "ab" "z").2 (by decide)).2⟩

/-- C10: supplying the text only as the keyword argument, with the first
positional parameter left at its None default, raises the ValueError even
though a text is specified, and no fragment is appended. -/
theorem C10_text_keyword_alone_raises (v : Verbex) (t : Operand) :
    Verbex.capture_groupM v none (some t)
      = (v, some "text must be specified with optional name") := rfl
